import Mathlib

/-!
Verification development for the file-link bot engine (src/main.py).

The Python handlers are embedded as pure Lean functions.  External
collaborators (the Telegram transport and the MongoDB store) are modelled
as explicit parameters: the per-user session document in the settings
collection becomes an explicit state value threaded through each handler,
and every external call that can fail is represented by an oracle
returning an Option or an enumerated outcome.
-/

/-! ## Reference generator (get_unique_id, main.py lines 90-102)

The Python generator draws up to 10 random candidate ids and returns the
first one not present in the single collection it was given.  The random
stream is modelled as the list of candidates the generator would draw. -/

def get_unique_id_go (collection : List String) : List String → Option String
  | [] => none
  | c :: rest =>
    if c ∈ collection then get_unique_id_go collection rest else some c

def get_unique_id (candidates : List String) (collection : List String) : Option String :=
  get_unique_id_go collection (candidates.take 10)

/-! ## Access gate (is_user_member_all_channels, main.py lines 113-133)

One membership lookup for one channel can end in five observably
different ways in the Python code:
- get_chat raises (chat missing or transport failure);
- get_chat returns a chat whose username is absent or differs from the
  requested one, in which case the member check is skipped entirely;
- get_chat_member raises UserNotParticipant;
- get_chat_member raises some other error;
- get_chat_member returns a member with some status string. -/

inductive LookupOutcome
  | chatError
  | usernameMismatch
  | notParticipant
  | memberError
  | memberStatus (s : String)
deriving DecidableEq

def channelMissing (r : LookupOutcome) : Bool :=
  match r with
  | LookupOutcome.chatError => true
  | LookupOutcome.usernameMismatch => false
  | LookupOutcome.notParticipant => true
  | LookupOutcome.memberError => true
  | LookupOutcome.memberStatus s => s == "kicked" || s == "left"

def is_user_member_all_channels (lookup : String → LookupOutcome)
    (channels : List String) : List String :=
  (channels.filter (fun ch => channelMissing (lookup ch))).dedup

/-! ## Upload session state (settings documents with type temp_link)

A session document carries a state string (single_link or multi_link),
an optional force channel, an optional custom name, an optional sticky
thumbnail id and the list of collected message ids.  Absence of the
document is modelled as none. -/

inductive SessionMode
  | single_link
  | multi_link
deriving DecidableEq

structure SessionState where
  state : SessionMode
  force_channel : Option String
  file_name : Option String
  thumbnail_id : Option String
  message_ids : List Nat
deriving DecidableEq

/-- Outcome of validating a requested force channel: get_chat can fail,
the chat can turn out not to be a channel, or the following
get_chat_member call for the bot itself can fail. -/
inductive ChanCheck
  | ok
  | notChannel
  | inaccessible
deriving DecidableEq

def sessionThumbnail (prev : Option SessionState) : Option String :=
  match prev with
  | some s => s.thumbnail_id
  | none => none

def sessionMessageIds (prev : Option SessionState) : List Nat :=
  match prev with
  | some s => s.message_ids
  | none => []

/-- create_link_handler (main.py lines 326-380): starts a single-link
session.  Both branches read the existing thumbnail id first and write it
back; the update does not touch message_ids.  A failing channel check
leaves the stored state untouched. -/
def create_link_handler (prev : Option SessionState) (chanArg : Option String)
    (title : Option String) (check : String → ChanCheck) : Option SessionState :=
  match chanArg with
  | none =>
    some { state := SessionMode.single_link, force_channel := none,
           file_name := title, thumbnail_id := sessionThumbnail prev,
           message_ids := sessionMessageIds prev }
  | some ch =>
    match check ch with
    | ChanCheck.ok =>
      some { state := SessionMode.single_link, force_channel := some ch,
             file_name := title, thumbnail_id := sessionThumbnail prev,
             message_ids := sessionMessageIds prev }
    | _ => prev

/-- multi_link_handler (main.py lines 561-620): starts a bundle session.
Both branches reset message_ids to the empty list and carry the existing
thumbnail id forward. -/
def multi_link_handler (prev : Option SessionState) (chanArg : Option String)
    (title : Option String) (check : String → ChanCheck) : Option SessionState :=
  match chanArg with
  | none =>
    some { state := SessionMode.multi_link, force_channel := none,
           file_name := title, thumbnail_id := sessionThumbnail prev,
           message_ids := [] }
  | some ch =>
    match check ch with
    | ChanCheck.ok =>
      some { state := SessionMode.multi_link, force_channel := some ch,
             file_name := title, thumbnail_id := sessionThumbnail prev,
             message_ids := [] }
    | _ => prev

/-- set_thumbnail_handler (main.py lines 383-407): stores the thumbnail id
and sets the state string to single_link, leaving other fields of an
existing document untouched. -/
def set_thumbnail_handler (prev : Option SessionState) (thumb : String) :
    Option SessionState :=
  match prev with
  | none =>
    some { state := SessionMode.single_link, force_channel := none,
           file_name := none, thumbnail_id := some thumb, message_ids := [] }
  | some s => some { s with thumbnail_id := some thumb, state := SessionMode.single_link }

/-- cancel_thumbnail_handler (main.py lines 409-423): update_one with an
unset of thumbnail_id and no upsert, so the document itself survives. -/
def cancel_thumbnail_handler (prev : Option SessionState) : Option SessionState :=
  match prev with
  | none => none
  | some s => some { s with thumbnail_id := none }

/-! ## Incoming content items (file_handler, main.py lines 426-558) -/

inductive FileKind
  | document
  | video
  | photo
  | audio
deriving DecidableEq

structure Incoming where
  kind : FileKind
  file_size : Nat
  msgId : Nat
  origName : Option String
deriving DecidableEq

def gb2 : Nat := 2 * 1024 * 1024 * 1024

/-- The size ceiling in file_handler is only consulted for video and
document payloads (main.py lines 443-444). -/
def oversizedForBundle (f : Incoming) : Bool :=
  match f.kind with
  | FileKind.video => gb2 < f.file_size
  | FileKind.document => gb2 < f.file_size
  | _ => false

def fileTypeName (k : FileKind) : String :=
  match k with
  | FileKind.document => "document"
  | FileKind.video => "video"
  | FileKind.photo => "photo"
  | FileKind.audio => "audio"

structure FileRecord where
  id : String
  message_id : Nat
  user_id : Nat
  file_name : String
  file_type : String
  force_channel : Option String
deriving DecidableEq

inductive FileResult
  | privateModeReject
  | bundleSizeReject
  | bundleAdded (count : Nat)
  | singleCreated (record : FileRecord)
  | singleError
deriving DecidableEq

/-- Single-file path of file_handler (main.py lines 461-558): the message
is copied to the log channel, an id is generated, a record inserted, and
the session document deleted.  A failed copy or exhausted id generation
raises inside the try block, leaving the stored state untouched. -/
def file_handler_single (prev : Option SessionState) (f : Incoming) (userId : Nat)
    (copyRes : Option Nat) (genId : Option String) : FileResult × Option SessionState :=
  match copyRes with
  | none => (FileResult.singleError, prev)
  | some fwdId =>
    match genId with
    | none => (FileResult.singleError, prev)
    | some gid =>
      let baseName :=
        match f.kind with
        | FileKind.document => f.origName.getD "Document"
        | FileKind.video => f.origName.getD "Video"
        | FileKind.photo => f.origName.getD ("Photo_" ++ toString fwdId)
        | FileKind.audio => f.origName.getD "Audio"
      let name :=
        match prev with
        | some s =>
          match s.file_name with
          | some n => n
          | none => baseName
        | none => baseName
      let fchan :=
        match prev with
        | some s => if s.state = SessionMode.single_link then s.force_channel else none
        | none => none
      (FileResult.singleCreated
        { id := gid, message_id := fwdId, user_id := userId, file_name := name,
          file_type := fileTypeName f.kind, force_channel := fchan },
       none)

/-- file_handler (main.py lines 426-558).  The private-mode gate runs
first; a session in multi_link state either rejects an oversized video or
document without mutation, or pushes the message id onto the bundle;
every other situation takes the single-file path. -/
def file_handler (mode : String) (isAdmin : Bool) (prev : Option SessionState)
    (f : Incoming) (userId : Nat) (copyRes : Option Nat) (genId : Option String) :
    FileResult × Option SessionState :=
  if mode == "private" && !isAdmin then
    (FileResult.privateModeReject, prev)
  else
    match prev with
    | some s =>
      if s.state = SessionMode.multi_link then
        if oversizedForBundle f then
          (FileResult.bundleSizeReject, some s)
        else
          (FileResult.bundleAdded (s.message_ids.length + 1),
           some { s with message_ids := s.message_ids ++ [f.msgId] })
      else
        file_handler_single (some s) f userId copyRes genId
    | none => file_handler_single none f userId copyRes genId

/-! ## Bundle finalisation (done_handler, main.py lines 622-719) -/

structure BundleRecord where
  id : String
  message_ids : List Nat
  user_id : Nat
  file_name : String
  force_channel : Option String
deriving DecidableEq

inductive DoneResult
  | notInMulti
  | emptyReject
  | genError
  | finalized (bundle : BundleRecord)
deriving DecidableEq

/-- Per-item copy loop shared by done_handler (lines 639-661) and the
bundle branch of start_handler (lines 245-261): each source id is copied
through the transport in order; a failing copy is logged and skipped, and
the ids of the successful copies are collected in order. -/
def copySequence (copy : Nat → Option Nat) : List Nat → List Nat
  | [] => []
  | m :: rest =>
    match copy m with
    | some fwd => fwd :: copySequence copy rest
    | none => copySequence copy rest

def bundleDefaultName (n : Nat) : String :=
  "Bundle of " ++ toString n ++ " Files"

/-- done_handler (main.py lines 622-719): outside a multi_link session the
command is refused; an empty id list is rejected before anything runs;
otherwise every pending id is copied (failures skipped), an id is drawn
for the bundle, the record is inserted and the session deleted.  A failed
id generation raises inside the try block, so the session survives. -/
def done_handler (userId : Nat) (prev : Option SessionState)
    (copy : Nat → Option Nat) (genId : Option String) :
    DoneResult × Option SessionState :=
  match prev with
  | some s =>
    if s.state = SessionMode.multi_link then
      if s.message_ids = [] then
        (DoneResult.emptyReject, some s)
      else
        let fwd := copySequence copy s.message_ids
        match genId with
        | none => (DoneResult.genError, some s)
        | some gid =>
          let name :=
            match s.file_name with
            | some n => if n = "" then bundleDefaultName fwd.length else n
            | none => bundleDefaultName fwd.length
          (DoneResult.finalized
            { id := gid, message_ids := fwd, user_id := userId, file_name := name,
              force_channel := s.force_channel },
           none)
    else (DoneResult.notInMulti, some s)
  | none => (DoneResult.notInMulti, none)

/-- Bundle branch of start_handler (main.py lines 245-261): the stored
message ids are copied to the requester in stored order, failures are
logged and skipped, and the delivered ids are collected for the deferred
deletion task. -/
def start_handler_bundle (record : BundleRecord) (send : Nat → Option Nat) : List Nat :=
  copySequence send record.message_ids

/-! ## Broadcast fanout (broadcast_handler_reply_enhanced, main.py 846-910)

One task per recipient other than the requester; a task increments the
success counter, or increments the failure counter and deletes the
recipient from the users collection.  The send outcome is an oracle. -/

def broadcast_run (ok : Nat → Bool) : List Nat → List Nat → Nat × Nat × List Nat
  | [], store => (0, 0, store)
  | u :: rest, store =>
    if ok u then
      let r := broadcast_run ok rest store
      (r.1 + 1, r.2.1, r.2.2)
    else
      let r := broadcast_run ok rest (store.erase u)
      (r.1, r.2.1 + 1, r.2.2)

def broadcast_handler_reply_enhanced (users : List Nat) (requester : Nat)
    (ok : Nat → Bool) : Nat × Nat × List Nat :=
  broadcast_run ok (users.filter (fun u => u != requester)) users

/-! ## Delete argument extraction (delete_file_handler, main.py 759-776)

The handler runs the Python expression command[1].split with the text
question mark s t a r t equals as separator and takes the last element,
so a full share link and a bare id select the same record.  Strings are
modelled as lists of characters and the split is embedded directly. -/

def startsWithMarker : List Char → Bool
  | '?' :: 's' :: 't' :: 'a' :: 'r' :: 't' :: '=' :: _ => true
  | _ => false

def consHead (c : Char) : List (List Char) → List (List Char)
  | [] => [[c]]
  | t :: ts => (c :: t) :: ts

/-- Embedding of the Python split on the marker: scanning left to right,
each non-overlapping occurrence of the separator closes the current piece
and starts a new one. -/
def splitOnMarker : List Char → List (List Char)
  | [] => [[]]
  | c :: rest =>
    if startsWithMarker (c :: rest) then
      [] :: splitOnMarker (rest.drop 6)
    else
      consHead c (splitOnMarker rest)
termination_by s => s.length
decreasing_by all_goals simp_arith [List.length_drop]

/-- Source expression: last element of the split of the delete argument. -/
def delete_arg_id (s : List Char) : List Char :=
  (splitOnMarker s).getLastD []

def containsMarker : List Char → Bool
  | [] => false
  | c :: rest => startsWithMarker (c :: rest) || containsMarker rest

/-- Suffix of the input strictly after the rightmost occurrence of the
marker; only meaningful when the marker occurs. -/
def afterLastMarker : List Char → List Char
  | [] => []
  | _ :: rest =>
    if containsMarker rest then afterLastMarker rest
    else rest.drop 6

/-- Reading of the claim: the id looked up is the substring after the
last occurrence of the marker, or the whole argument when the marker is
absent. -/
def spec_delete_id (s : List Char) : List Char :=
  if containsMarker s then afterLastMarker s else s

/-! ## Helper lemmas -/

theorem get_unique_id_go_not_mem (coll : List String) (l : List String) (id : String)
    (h : get_unique_id_go coll l = some id) : id ∉ coll := by
  induction l with
  | nil => simp [get_unique_id_go] at h
  | cons c rest ih =>
    rw [get_unique_id_go] at h
    by_cases hc : c ∈ coll
    · rw [if_pos hc] at h
      exact ih h
    · rw [if_neg hc] at h
      injection h with h2
      subst h2
      exact hc

theorem copySequence_eq_filterMap (f : Nat → Option Nat) (l : List Nat) :
    copySequence f l = l.filterMap f := by
  induction l with
  | nil => rfl
  | cons a l ih =>
    cases h : f a <;> simp [copySequence, List.filterMap_cons, h, ih]

theorem filterMap_eq_filter_map (f : Nat → Option Nat) (l : List Nat) :
    l.filterMap f = (l.filter (fun a => (f a).isSome)).map (fun a => (f a).getD 0) := by
  induction l with
  | nil => rfl
  | cons a l ih =>
    cases h : f a <;> simp [List.filterMap_cons, List.filter_cons, h, ih]

theorem broadcast_run_success_count (ok : Nat → Bool) (recips : List Nat) :
    ∀ store, (broadcast_run ok recips store).1 = (recips.filter ok).length := by
  induction recips with
  | nil => intro store; rfl
  | cons u rest ih =>
    intro store
    by_cases h : ok u = true <;> simp [broadcast_run, h, List.filter_cons, ih]

theorem broadcast_run_failure_count (ok : Nat → Bool) (recips : List Nat) :
    ∀ store, (broadcast_run ok recips store).2.1
      = (recips.filter (fun u => !(ok u))).length := by
  induction recips with
  | nil => intro store; rfl
  | cons u rest ih =>
    intro store
    by_cases h : ok u = true <;> simp [broadcast_run, h, List.filter_cons, ih]

theorem broadcast_run_total (ok : Nat → Bool) (recips : List Nat) :
    ∀ store, (broadcast_run ok recips store).1 + (broadcast_run ok recips store).2.1
      = recips.length := by
  induction recips with
  | nil => intro store; rfl
  | cons u rest ih =>
    intro store
    by_cases h : ok u = true
    · have := ih store
      simp [broadcast_run, h]
      omega
    · have := ih (store.erase u)
      simp [broadcast_run, h]
      omega

theorem broadcast_run_not_mem (ok : Nat → Bool) (recips : List Nat) :
    ∀ store u, u ∉ store → u ∉ (broadcast_run ok recips store).2.2 := by
  induction recips with
  | nil =>
    intro store u hu
    simpa [broadcast_run] using hu
  | cons v rest ih =>
    intro store u hu
    by_cases h : ok v = true
    · simpa [broadcast_run, h] using ih store u hu
    · simpa [broadcast_run, h] using
        ih (store.erase v) u (fun hm => hu (List.mem_of_mem_erase hm))

theorem broadcast_run_removes (ok : Nat → Bool) (recips : List Nat) :
    ∀ store u, store.Nodup → u ∈ recips → ok u = false →
      u ∉ (broadcast_run ok recips store).2.2 := by
  induction recips with
  | nil =>
    intro store u _ hu _
    simp at hu
  | cons v rest ih =>
    intro store u hnd hu hfail
    by_cases h : ok v = true
    · have huv : u ≠ v := by
        rintro rfl
        rw [hfail] at h
        simp at h
      have hur : u ∈ rest := by
        rcases List.mem_cons.mp hu with h1 | h1
        · exact absurd h1 huv
        · exact h1
      simpa [broadcast_run, h] using ih store u hnd hur hfail
    · by_cases huv : u = v
      · subst huv
        have hnm : u ∉ store.erase u := fun hm =>
          ((List.Nodup.mem_erase_iff hnd).mp hm).1 rfl
        simpa [broadcast_run, h] using broadcast_run_not_mem ok rest (store.erase u) u hnm
      · have hur : u ∈ rest := by
          rcases List.mem_cons.mp hu with h1 | h1
          · exact absurd h1 huv
          · exact h1
        simpa [broadcast_run, h] using ih (store.erase v) u (hnd.erase v) hur hfail

/-! ## Claim C1 -/

def c1_files : List String := []

def c1_multi_files : List String := ["ab12cd34"]

/-- C1 counterexample: the generator consults only the collection it was
given, so with the single-file collection empty it returns an id that
already exists in the bundle collection. -/
theorem C1_counterexample :
    get_unique_id ["ab12cd34"] c1_files = some "ab12cd34"
    ∧ "ab12cd34" ∈ c1_multi_files := by
  constructor
  · rfl
  · simp [c1_multi_files]

/-- C1 (amended): an id returned by get_unique_id does not already exist
in the collection the generator was asked to check, which is the one the
caller inserts into; the other namespace is not consulted. -/
theorem C1_unique_in_target (candidates collection : List String) (id : String)
    (h : get_unique_id candidates collection = some id) : id ∉ collection :=
  get_unique_id_go_not_mem collection (candidates.take 10) id h

theorem C1_unique_in_target_witness :
    get_unique_id ["zz"] ["aa"] = some "zz" ∧ "zz" ∉ ["aa"] :=
  ⟨by decide, C1_unique_in_target ["zz"] ["aa"] "zz" (by decide)⟩

/-! ## Claim C2 -/

/-- C2: the access gate is fail-closed.  Whenever the lookup for a single
channel ends in a chat-level error, a member-level error, a
UserNotParticipant result, or a kicked or left status, that channel is in
the returned missing list. -/
theorem C2_fail_closed (lookup : String → LookupOutcome) (channels : List String)
    (ch : String) (hmem : ch ∈ channels)
    (herr : lookup ch = LookupOutcome.chatError ∨
            lookup ch = LookupOutcome.memberError ∨
            lookup ch = LookupOutcome.notParticipant ∨
            lookup ch = LookupOutcome.memberStatus "kicked" ∨
            lookup ch = LookupOutcome.memberStatus "left") :
    ch ∈ is_user_member_all_channels lookup channels := by
  have hmiss : channelMissing (lookup ch) = true := by
    rcases herr with h | h | h | h | h <;> rw [h] <;> rfl
  exact List.mem_dedup.mpr (List.mem_filter.mpr ⟨hmem, hmiss⟩)

theorem C2_fail_closed_witness :
    "alpha" ∈ is_user_member_all_channels (fun _ => LookupOutcome.chatError) ["alpha"] :=
  C2_fail_closed (fun _ => LookupOutcome.chatError) ["alpha"] "alpha"
    (by decide) (Or.inl rfl)

/-! ## Claim C3 -/

def c3_session : SessionState :=
  { state := SessionMode.multi_link, force_channel := none, file_name := none,
    thumbnail_id := none, message_ids := [7] }

/-- C3 counterexample: a one-item bundle whose only copy fails is still
persisted, with an empty message-id list, and the session is cleared. -/
theorem C3_counterexample :
    done_handler 1 (some c3_session) (fun _ => none) (some "bundleid")
      = (DoneResult.finalized
          { id := "bundleid", message_ids := [], user_id := 1,
            file_name := "Bundle of 0 Files", force_channel := none },
         none) := by
  decide

/-- C3 (amended): finalize on a session with zero pending items is
rejected with the session unchanged; a finalized bundle record holds
exactly the successfully copied items, which can be the empty list when
every per-item copy fails. -/
theorem C3_finalize_contents (userId : Nat) (s : SessionState)
    (copy : Nat → Option Nat) (gid : String)
    (hs : s.state = SessionMode.multi_link) :
    (s.message_ids = [] →
      done_handler userId (some s) copy (some gid) = (DoneResult.emptyReject, some s))
    ∧ (∀ b, (done_handler userId (some s) copy (some gid)).fst = DoneResult.finalized b →
        b.message_ids = s.message_ids.filterMap copy) := by
  constructor
  · intro he
    simp [done_handler, hs, he]
  · intro b hb
    by_cases he : s.message_ids = []
    · simp [done_handler, hs, he] at hb
    · simp [done_handler, hs, he] at hb
      rw [← hb]
      exact copySequence_eq_filterMap copy s.message_ids

def c3w_session : SessionState :=
  { state := SessionMode.multi_link, force_channel := none, file_name := none,
    thumbnail_id := none, message_ids := [] }

theorem C3_finalize_contents_witness :
    done_handler 1 (some c3w_session) (fun _ => none) (some "xy")
      = (DoneResult.emptyReject, some c3w_session) :=
  (C3_finalize_contents 1 c3w_session (fun _ => none) "xy" rfl).1 rfl

/-! ## Claim C4 -/

/-- C4: a finalized bundle stores, in submission order, the copies of
exactly those submitted items whose copy succeeded (the kept submissions
form an order-preserving sublist of the pending list), and resolution
delivers the stored list in stored order, skipping per-item failures. -/
theorem C4_order_preserved (userId : Nat) (s : SessionState)
    (copy send : Nat → Option Nat) (gid : String)
    (hs : s.state = SessionMode.multi_link) (hne : s.message_ids ≠ []) :
    ∃ b, (done_handler userId (some s) copy (some gid)).fst = DoneResult.finalized b
      ∧ b.message_ids
          = (s.message_ids.filter (fun m => (copy m).isSome)).map (fun m => (copy m).getD 0)
      ∧ (s.message_ids.filter (fun m => (copy m).isSome)).Sublist s.message_ids
      ∧ start_handler_bundle b send
          = (b.message_ids.filter (fun m => (send m).isSome)).map
              (fun m => (send m).getD 0) := by
  refine ⟨{ id := gid, message_ids := copySequence copy s.message_ids, user_id := userId,
            file_name := (match s.file_name with
              | some n =>
                if n = "" then bundleDefaultName (copySequence copy s.message_ids).length
                else n
              | none => bundleDefaultName (copySequence copy s.message_ids).length),
            force_channel := s.force_channel }, ?_, ?_, ?_, ?_⟩
  · simp [done_handler, hs, hne]
  · simp only [copySequence_eq_filterMap]
    exact filterMap_eq_filter_map copy s.message_ids
  · exact List.filter_sublist _
  · simp only [start_handler_bundle, copySequence_eq_filterMap]
    exact filterMap_eq_filter_map send _

def c4_session : SessionState :=
  { state := SessionMode.multi_link, force_channel := none, file_name := some "Pack",
    thumbnail_id := none, message_ids := [1, 2, 3] }

def c4_copy : Nat → Option Nat := fun m => if m = 2 then none else some (100 + m)

def c4_send : Nat → Option Nat := fun m => some m

theorem C4_order_preserved_witness :
    c4_session.message_ids ≠ [] ∧
    ∃ b, (done_handler 9 (some c4_session) c4_copy (some "bid")).fst
          = DoneResult.finalized b
      ∧ b.message_ids
          = (c4_session.message_ids.filter (fun m => (c4_copy m).isSome)).map
              (fun m => (c4_copy m).getD 0)
      ∧ (c4_session.message_ids.filter (fun m => (c4_copy m).isSome)).Sublist
          c4_session.message_ids
      ∧ start_handler_bundle b c4_send
          = (b.message_ids.filter (fun m => (c4_send m).isSome)).map
              (fun m => (c4_send m).getD 0) :=
  ⟨by decide, C4_order_preserved 9 c4_session c4_copy c4_send "bid" rfl (by decide)⟩

/-! ## Claim C5 -/

def c5_session : SessionState :=
  { state := SessionMode.multi_link, force_channel := none, file_name := none,
    thumbnail_id := none, message_ids := [] }

def c5_audio : Incoming :=
  { kind := FileKind.audio, file_size := 3 * 1024 * 1024 * 1024, msgId := 11,
    origName := none }

/-- C5 counterexample: an audio item whose declared size is 3 GiB is
appended to the bundle, so the size ceiling does not apply to every
content kind and the pending list grows. -/
theorem C5_counterexample :
    file_handler "public" false (some c5_session) c5_audio 1 none none
      = (FileResult.bundleAdded 1, some { c5_session with message_ids := [11] })
    ∧ (file_handler "public" false (some c5_session) c5_audio 1 none none).fst
        ≠ FileResult.bundleSizeReject := by
  constructor
  · rfl
  · decide

/-- C5 (amended): for a session in the bundle-collecting state, submitting
a video or document item whose declared size exceeds 2 GiB leaves the
session unchanged and returns the size-limit message; the check is not
applied to photo or audio items. -/
theorem C5_size_reject (mode : String) (isAdmin : Bool) (s : SessionState)
    (f : Incoming) (userId : Nat) (copyRes : Option Nat) (genId : Option String)
    (hgate : (mode == "private" && !isAdmin) = false)
    (hs : s.state = SessionMode.multi_link)
    (hk : f.kind = FileKind.document ∨ f.kind = FileKind.video)
    (hsz : gb2 < f.file_size) :
    file_handler mode isAdmin (some s) f userId copyRes genId
      = (FileResult.bundleSizeReject, some s) := by
  have hov : oversizedForBundle f = true := by
    rcases hk with h | h <;> simp [oversizedForBundle, h, hsz]
  simp [file_handler, hgate, hs, hov]

def c5_video : Incoming :=
  { kind := FileKind.video, file_size := 3 * 1024 * 1024 * 1024, msgId := 12,
    origName := none }

theorem C5_size_reject_witness :
    file_handler "public" false (some c5_session) c5_video 1 none none
      = (FileResult.bundleSizeReject, some c5_session) :=
  C5_size_reject "public" false c5_session c5_video 1 none none (by decide) rfl
    (Or.inr rfl) (by decide)

/-! ## Claim C6 -/

/-- C6: finalizing a bundle session with an empty pending list is rejected
with the guidance message, and the stored session is returned unchanged,
still in the bundle-collecting state. -/
theorem C6_empty_finalize_rejected (userId : Nat) (s : SessionState)
    (copy : Nat → Option Nat) (genId : Option String)
    (hs : s.state = SessionMode.multi_link) (he : s.message_ids = []) :
    done_handler userId (some s) copy genId = (DoneResult.emptyReject, some s) := by
  simp [done_handler, hs, he]

def c6_session : SessionState :=
  { state := SessionMode.multi_link, force_channel := some "grp", file_name := some "T",
    thumbnail_id := some "th", message_ids := [] }

theorem C6_empty_finalize_rejected_witness :
    done_handler 4 (some c6_session) (fun m => some m) none
      = (DoneResult.emptyReject, some c6_session) :=
  C6_empty_finalize_rejected 4 c6_session (fun m => some m) none rfl rfl

/-! ## Claim C7 -/

/-- C7: a stored thumbnail override survives the start of a new
single-link session and the start of a new bundle session, with or
without a requirement or title, whenever the optional channel validation
succeeds. -/
theorem C7_sticky_thumbnail (prev : SessionState) (t : String)
    (chanArg : Option String) (title : Option String) (check : String → ChanCheck)
    (ht : prev.thumbnail_id = some t)
    (hok : ∀ c, chanArg = some c → check c = ChanCheck.ok) :
    (∃ s, create_link_handler (some prev) chanArg title check = some s
        ∧ s.thumbnail_id = some t)
    ∧ (∃ s, multi_link_handler (some prev) chanArg title check = some s
        ∧ s.thumbnail_id = some t) := by
  cases chanArg with
  | none =>
    refine ⟨⟨_, rfl, ?_⟩, ⟨_, rfl, ?_⟩⟩ <;> simpa [sessionThumbnail] using ht
  | some c =>
    have hc := hok c rfl
    refine ⟨⟨{ state := SessionMode.single_link, force_channel := some c,
               file_name := title, thumbnail_id := sessionThumbnail (some prev),
               message_ids := sessionMessageIds (some prev) }, ?_, ?_⟩,
            ⟨{ state := SessionMode.multi_link, force_channel := some c,
               file_name := title, thumbnail_id := sessionThumbnail (some prev),
               message_ids := [] }, ?_, ?_⟩⟩
    · simp [create_link_handler, hc]
    · simpa [sessionThumbnail] using ht
    · simp [multi_link_handler, hc]
    · simpa [sessionThumbnail] using ht

def c7_prev : SessionState :=
  { state := SessionMode.single_link, force_channel := none, file_name := none,
    thumbnail_id := some "X", message_ids := [] }

theorem C7_sticky_thumbnail_witness :
    (∃ s, create_link_handler (some c7_prev) (some "grp") (some "Title")
            (fun _ => ChanCheck.ok) = some s
        ∧ s.thumbnail_id = some "X")
    ∧ (∃ s, multi_link_handler (some c7_prev) (some "grp") (some "Title")
            (fun _ => ChanCheck.ok) = some s
        ∧ s.thumbnail_id = some "X") :=
  C7_sticky_thumbnail c7_prev "X" (some "grp") (some "Title") (fun _ => ChanCheck.ok)
    rfl (fun _ _ => rfl)

/-! ## Claim C8 -/

/-- C8: the requester is excluded from the fanout; every attempted
recipient lands in exactly one of the two counters, so the counters sum
to the number of non-excluded recipients; the returned counts are the
filtered success and failure totals; and every recipient whose attempt
failed is absent from the users collection afterwards. -/
theorem C8_broadcast_accounting (users : List Nat) (requester : Nat) (ok : Nat → Bool)
    (hnd : users.Nodup) :
    (broadcast_handler_reply_enhanced users requester ok).1
        + (broadcast_handler_reply_enhanced users requester ok).2.1
      = (users.filter (fun u => u != requester)).length
    ∧ (broadcast_handler_reply_enhanced users requester ok).1
      = ((users.filter (fun u => u != requester)).filter ok).length
    ∧ (broadcast_handler_reply_enhanced users requester ok).2.1
      = ((users.filter (fun u => u != requester)).filter (fun u => !(ok u))).length
    ∧ ∀ u, u ∈ users → u ≠ requester → ok u = false →
        u ∉ (broadcast_handler_reply_enhanced users requester ok).2.2 := by
  refine ⟨broadcast_run_total ok _ users, broadcast_run_success_count ok _ users,
          broadcast_run_failure_count ok _ users, ?_⟩
  intro u hu hne hfail
  have hmem : u ∈ users.filter (fun x => x != requester) :=
    List.mem_filter.mpr ⟨hu, by simpa [bne_iff_ne] using hne⟩
  exact broadcast_run_removes ok _ users u hnd hmem hfail

def c8_users : List Nat := [0, 1, 2, 3, 4, 5, 6, 7, 8, 9, 100]

def c8_ok : Nat → Bool := fun u => decide (3 ≤ u)

theorem C8_broadcast_accounting_witness :
    (broadcast_handler_reply_enhanced c8_users 100 c8_ok).1 = 7
    ∧ (broadcast_handler_reply_enhanced c8_users 100 c8_ok).2.1 = 3
    ∧ (broadcast_handler_reply_enhanced c8_users 100 c8_ok).2.2
        = [3, 4, 5, 6, 7, 8, 9, 100]
    ∧ (∀ u, u ∈ c8_users → u ≠ 100 → c8_ok u = false →
        u ∉ (broadcast_handler_reply_enhanced c8_users 100 c8_ok).2.2) :=
  ⟨by decide, by decide, by decide,
   (C8_broadcast_accounting c8_users 100 c8_ok (by decide)).2.2.2⟩

/-! ## Claim C9 -/

def c9_session : SessionState :=
  { state := SessionMode.multi_link, force_channel := none, file_name := some "My Bundle",
    thumbnail_id := some "thumb1", message_ids := [5, 6] }

/-- C9 counterexample: cancel-thumbnail on a bundle-collecting session
does not remove the session row; the session survives with its mode and
pending items intact and only the thumbnail cleared. -/
theorem C9_counterexample :
    cancel_thumbnail_handler (some c9_session)
      = some { c9_session with thumbnail_id := none }
    ∧ cancel_thumbnail_handler (some c9_session) ≠ none := by
  decide

/-- C9 (amended): the cancel-thumbnail command only clears the stored
thumbnail override; the session row survives with its mode, pending
pointers, requirement and title unchanged, rather than transitioning to
the idle state. -/
theorem C9_cancel_clears_only_thumbnail (s : SessionState) :
    cancel_thumbnail_handler (some s) = some { s with thumbnail_id := none } := rfl

/-! ## Claim C10 -/

theorem startsWithMarker_shape (s : List Char) (h : startsWithMarker s = true) :
    ∃ r, s = '?' :: 's' :: 't' :: 'a' :: 'r' :: 't' :: '=' :: r := by
  unfold startsWithMarker at h
  split at h
  · exact ⟨_, rfl⟩
  · simp at h

theorem startsWithMarker_false_of_head (c : Char) (t : List Char) (hc : c ≠ '?') :
    startsWithMarker (c :: t) = false := by
  cases h : startsWithMarker (c :: t)
  · rfl
  · obtain ⟨r, hr⟩ := startsWithMarker_shape (c :: t) h
    injection hr with h1 _
    exact absurd h1 hc

theorem containsMarker_inner (r : List Char) :
    containsMarker ('s' :: 't' :: 'a' :: 'r' :: 't' :: '=' :: r) = containsMarker r := by
  simp only [containsMarker,
    startsWithMarker_false_of_head 's' ('t' :: 'a' :: 'r' :: 't' :: '=' :: r) (by decide),
    startsWithMarker_false_of_head 't' ('a' :: 'r' :: 't' :: '=' :: r) (by decide),
    startsWithMarker_false_of_head 'a' ('r' :: 't' :: '=' :: r) (by decide),
    startsWithMarker_false_of_head 'r' ('t' :: '=' :: r) (by decide),
    startsWithMarker_false_of_head 't' ('=' :: r) (by decide),
    startsWithMarker_false_of_head '=' r (by decide),
    Bool.false_or]

theorem consHead_ne_nil (c : Char) (l : List (List Char)) : consHead c l ≠ [] := by
  cases l <;> simp [consHead]

theorem splitOnMarker_ne_nil (s : List Char) : splitOnMarker s ≠ [] := by
  cases s with
  | nil => simp [splitOnMarker]
  | cons c rest =>
    rw [splitOnMarker]
    split
    · simp
    · exact consHead_ne_nil c _

theorem splitOnMarker_of_not_contains (s : List Char)
    (h : containsMarker s = false) : splitOnMarker s = [s] := by
  induction s with
  | nil => simp [splitOnMarker]
  | cons c rest ih =>
    simp only [containsMarker, Bool.or_eq_false_iff] at h
    rw [splitOnMarker, if_neg (by simp [h.1]), ih h.2]
    rfl

theorem containsMarker_of_drop : ∀ (n : Nat) (l : List Char),
    containsMarker (l.drop n) = true → containsMarker l = true := by
  intro n
  induction n with
  | zero => intro l h; simpa using h
  | succ n ih =>
    intro l h
    cases l with
    | nil => simpa using h
    | cons c t =>
      have ht : containsMarker t = true := ih t (by simpa using h)
      simp [containsMarker, ht]

theorem afterLast_cons_of_contains (c : Char) (t : List Char)
    (h : containsMarker t = true) : afterLastMarker (c :: t) = afterLastMarker t := by
  simp [afterLastMarker, h]

theorem afterLast_drop : ∀ (k : Nat) (t : List Char),
    containsMarker (t.drop k) = true → afterLastMarker t = afterLastMarker (t.drop k) := by
  intro k
  induction k with
  | zero => intro t h; rfl
  | succ k ih =>
    intro t h
    cases t with
    | nil => simp [containsMarker] at h
    | cons c t2 =>
      have h2 : containsMarker (t2.drop k) = true := by simpa using h
      have hc : containsMarker t2 = true := containsMarker_of_drop k t2 h2
      rw [afterLast_cons_of_contains c t2 hc]
      simpa using ih t2 h2

theorem splitOnMarker_length_two (s : List Char)
    (h : containsMarker s = true) : 2 ≤ (splitOnMarker s).length := by
  induction s with
  | nil => simp [containsMarker] at h
  | cons c rest ih =>
    rw [splitOnMarker]
    by_cases hsw : startsWithMarker (c :: rest) = true
    · rw [if_pos hsw]
      have hne := splitOnMarker_ne_nil (rest.drop 6)
      have h1 : 1 ≤ (splitOnMarker (rest.drop 6)).length := by
        cases hs : splitOnMarker (rest.drop 6)
        · exact absurd hs hne
        · simp
      simp only [List.length_cons]
      omega
    · have hsw0 : startsWithMarker (c :: rest) = false := by simpa using hsw
      have hcr : containsMarker rest = true := by
        simpa [containsMarker, hsw0] using h
      rw [if_neg (by simp [hsw0])]
      have h2 := ih hcr
      cases hsp : splitOnMarker rest with
      | nil => exact absurd hsp (splitOnMarker_ne_nil rest)
      | cons t ts =>
        rw [hsp] at h2
        simpa [consHead] using h2

theorem getLastD_irrel (x : List Char) (xs : List (List Char)) (a b : List Char) :
    (x :: xs).getLastD a = (x :: xs).getLastD b := by
  rw [List.getLastD_cons, List.getLastD_cons]

theorem getLastD_consHead (c : Char) (t : List Char) (ts : List (List Char))
    (hts : ts ≠ []) (d : List Char) :
    (consHead c (t :: ts)).getLastD d = (t :: ts).getLastD d := by
  show ((c :: t) :: ts).getLastD d = (t :: ts).getLastD d
  rw [List.getLastD_cons, List.getLastD_cons]
  cases ts with
  | nil => exact absurd rfl hts
  | cons y ys => exact getLastD_irrel y ys (c :: t) t

theorem delete_main_aux : ∀ n, ∀ s : List Char, s.length = n →
    delete_arg_id s = spec_delete_id s := by
  intro n
  induction n using Nat.strong_induction_on with
  | _ n ih =>
    intro s hn
    cases s with
    | nil => simp [delete_arg_id, splitOnMarker, spec_delete_id, containsMarker]
    | cons c rest =>
      by_cases hsw : startsWithMarker (c :: rest) = true
      · obtain ⟨r2, hshape⟩ := startsWithMarker_shape (c :: rest) hsw
        injection hshape with hc hrest
        subst hc
        subst hrest
        have hlen : r2.length < n := by
          simp [List.length_cons] at hn
          omega
        have hsplit : splitOnMarker ('?' :: 's' :: 't' :: 'a' :: 'r' :: 't' :: '=' :: r2)
            = [] :: splitOnMarker r2 := by
          rw [splitOnMarker,
            if_pos (show startsWithMarker ('?' :: 's' :: 't' :: 'a' :: 'r' :: 't' :: '=' :: r2) = true from rfl)]
          rfl
        have hlast : delete_arg_id ('?' :: 's' :: 't' :: 'a' :: 'r' :: 't' :: '=' :: r2)
            = delete_arg_id r2 := by
          unfold delete_arg_id
          rw [hsplit, List.getLastD_cons]
        have hIH := ih r2.length hlen r2 rfl
        rw [hlast, hIH]
        have hrest6eq := containsMarker_inner r2
        by_cases hcm : containsMarker r2 = true
        · have hrest6 : containsMarker ('s' :: 't' :: 'a' :: 'r' :: 't' :: '=' :: r2) = true := by
            rw [hrest6eq]; exact hcm
          have hfull : containsMarker ('?' :: 's' :: 't' :: 'a' :: 'r' :: 't' :: '=' :: r2) = true := by
            rw [containsMarker]
            simp [hsw]
          simp only [spec_delete_id, hcm, hfull, if_true]
          rw [afterLast_cons_of_contains '?' ('s' :: 't' :: 'a' :: 'r' :: 't' :: '=' :: r2) hrest6]
          rw [afterLast_drop 6 ('s' :: 't' :: 'a' :: 'r' :: 't' :: '=' :: r2) (by simpa using hcm)]
          rfl
        · have hcm2 : containsMarker r2 = false := by simpa using hcm
          have hrest6 : containsMarker ('s' :: 't' :: 'a' :: 'r' :: 't' :: '=' :: r2) = false := by
            rw [hrest6eq]; exact hcm2
          have hfull : containsMarker ('?' :: 's' :: 't' :: 'a' :: 'r' :: 't' :: '=' :: r2) = true := by
            rw [containsMarker]
            simp [hsw]
          simp only [spec_delete_id, hcm2, hfull, if_true, Bool.false_eq_true, if_false]
          rw [afterLastMarker, if_neg (by simp [hrest6])]
          rfl
      · have hsw0 : startsWithMarker (c :: rest) = false := by simpa using hsw
        have hsplit : splitOnMarker (c :: rest) = consHead c (splitOnMarker rest) := by
          rw [splitOnMarker, if_neg (by simp [hsw0])]
        by_cases hcm : containsMarker rest = true
        · have hfull : containsMarker (c :: rest) = true := by simp [containsMarker, hcm]
          have hlen2 : rest.length < n := by
            simp [List.length_cons] at hn
            omega
          have hIH := ih rest.length hlen2 rest rfl
          have h2 := splitOnMarker_length_two rest hcm
          cases hsp : splitOnMarker rest with
          | nil => exact absurd hsp (splitOnMarker_ne_nil rest)
          | cons t ts =>
            have hts : ts ≠ [] := by
              rw [hsp] at h2
              cases ts
              · simp at h2
              · simp
            have heq : delete_arg_id (c :: rest) = delete_arg_id rest := by
              unfold delete_arg_id
              rw [hsplit, hsp, getLastD_consHead c t ts hts]
            rw [heq, hIH]
            simp only [spec_delete_id, hcm, hfull, if_true]
            rw [afterLast_cons_of_contains c rest hcm]
        · have hcm2 : containsMarker rest = false := by simpa using hcm
          have hfull : containsMarker (c :: rest) = false := by
            simp [containsMarker, hsw0, hcm2]
          have hsp := splitOnMarker_of_not_contains (c :: rest) hfull
          unfold delete_arg_id
          rw [hsp]
          simp [spec_delete_id, hfull, List.getLastD_cons]

/-- C10: the id extracted from the delete argument is the suffix of the
argument after the last occurrence of the marker, or the whole argument
when the marker does not occur, so a pasted share link and a bare id
select the same record. -/
theorem C10_delete_argument_extraction (arg : List Char) :
    delete_arg_id arg = spec_delete_id arg :=
  delete_main_aux arg.length arg rfl
